import Mathlib

/-!
Verification of `src/server.js` (a Gemini-backed, OpenAI-compatible chat
proxy). The JavaScript source is shallowly embedded below: JS strings are
Lean `String`s, JS errors are records with an optional `message` field,
the process-wide credential pool plus rotation cursor is an explicit
`KeyState` threaded through the functions that mutate it, and the side
effect of `res.write` during streaming is explicit state passing of the
list of SSE frames written so far.
-/

namespace Server

/-- Model of a JavaScript `Error` as seen by the retry logic: only its
`message` field is inspected. `none` models an absent (`undefined`)
message. -/
structure JsError where
  message : Option String
deriving DecidableEq, Repr

/-- Model of JS `String.prototype.includes`: `sub` occurs contiguously in
`s`. -/
def strIncludes (s sub : String) : Bool :=
  decide (sub.data <:+: s.data)

/-- Embedding of the `is429Error` classification inside
`apiKeyManager.executeWithRetry` (src/server.js lines 96-101):
`error.message && (message.includes('429') || includes('quota') ||
includes('rate limit') || includes('too many requests'))`, with JS
truthiness of the message string made explicit (`undefined` and `""` are
falsy). -/
def is429Error (e : JsError) : Bool :=
  match e.message with
  | none => false
  | some m =>
      (m != "") &&
        (strIncludes m "429" || strIncludes m "quota" ||
         strIncludes m "rate limit" || strIncludes m "too many requests")

/-- The process-wide credential state: `apiKeyPool` together with
`currentApiKeyIndex` (src/server.js lines 49-56). -/
structure KeyState where
  pool : List String
  idx : Nat
deriving DecidableEq, Repr

/-- Embedding of `apiKeyManager.getCurrentApiKey` (line 61):
`apiKeyPool[currentApiKeyIndex]`; `none` models the `undefined` produced
by an out-of-range index. -/
def getCurrentApiKey (st : KeyState) : Option String :=
  st.pool.get? st.idx

/-- Embedding of `apiKeyManager.switchToNextApiKey` (lines 66-70):
`currentApiKeyIndex = (currentApiKeyIndex + 1) % apiKeyPool.length`, and
the new current key is returned. -/
def switchToNextApiKey (st : KeyState) : KeyState × Option String :=
  let st' : KeyState := { pool := st.pool, idx := (st.idx + 1) % st.pool.length }
  (st', st'.pool.get? st'.idx)

/-- The state transition of `switchToNextApiKey`, for iterating. -/
def advanceKey (st : KeyState) : KeyState :=
  (switchToNextApiKey st).1

/-- Embedding of `apiKeyManager.executeWithRetry` (lines 88-117),
structured by the remaining attempt budget `maxRetries - retryCount`.
The supplied `apiCallFn` receives the current API key (standing for the
model client `getGenerativeModel()` builds from it) and may have side
effects on a state `σ` (for the streaming handler, the frames written to
`res`; for counting models, an invocation counter), returning `Except`
for normal return vs. thrown error. The JS loop guard
`retryCount < maxRetries` is the `0` case (budget exhausted without a
call → the "所有API密钥都已达到速率限制" error); the JS retry condition
`is429Error && retryCount < maxRetries - 1` is `is429Error e && 0 < n`
for remaining budget `n + 1`. -/
def executeWithRetryGo {σ α : Type} (apiCallFn : Option String → σ → σ × Except JsError α) :
    Nat → KeyState → σ → KeyState × σ × Except JsError α
  | 0, st, s => (st, s, Except.error { message := some "所有API密钥都已达到速率限制" })
  | Nat.succ n, st, s =>
      match apiCallFn (getCurrentApiKey st) s with
      | (s', Except.ok a) => (st, s', Except.ok a)
      | (s', Except.error e) =>
          if is429Error e && decide (0 < n) then
            executeWithRetryGo apiCallFn n (advanceKey st) s'
          else (st, s', Except.error e)

/-- Entry point of `executeWithRetry`: start with `retryCount = 0`, i.e.
full budget `maxRetries` remaining. -/
def executeWithRetry {σ α : Type} (apiCallFn : Option String → σ → σ × Except JsError α)
    (maxRetries : Nat) (st : KeyState) (s : σ) : KeyState × σ × Except JsError α :=
  executeWithRetryGo apiCallFn maxRetries st s

/-- The fields of one `chat.completion.chunk` JSON object as built by the
streaming branch (src/server.js lines 260-326). The `delta` object is
flattened into its two possible fields. -/
structure ChatChunk where
  id : String
  object : String
  created : Nat
  model : String
  deltaRole : Option String
  deltaContent : Option String
  finishReason : Option String
deriving DecidableEq, Repr

/-- One `data: ...\n\n` frame written to the SSE response: a chunk JSON
object, the error event of the catch block (lines 334-340), or the
literal `data: [DONE]` sentinel. -/
inductive SSEFrame where
  | chunk (c : ChatChunk)
  | errorEvent (message : Option String) (type : String)
  | done
deriving DecidableEq, Repr

/-- The model name hard-coded into every chunk. -/
def geminiModelName : String := "gemini-2.5-pro-exp-03-25"

/-- The `startEvent` role-announcement chunk (lines 260-272):
`delta: \x7b role: "assistant" \x7d`, `finish_reason: null`. -/
def startEvent (id : String) (created : Nat) : ChatChunk :=
  { id := id, object := "chat.completion.chunk", created := created,
    model := geminiModelName, deltaRole := some "assistant",
    deltaContent := none, finishReason := none }

/-- The `chunkEvent` content-delta chunk (lines 294-306):
`delta: \x7b content: chunkText \x7d`, `finish_reason: null`. -/
def chunkEvent (id : String) (created : Nat) (chunkText : String) : ChatChunk :=
  { id := id, object := "chat.completion.chunk", created := created,
    model := geminiModelName, deltaRole := none,
    deltaContent := some chunkText, finishReason := none }

/-- The `finishEvent` terminal chunk (lines 313-325): empty delta,
`finish_reason: "stop"`. -/
def finishEvent (id : String) (created : Nat) : ChatChunk :=
  { id := id, object := "chat.completion.chunk", created := created,
    model := geminiModelName, deltaRole := none, deltaContent := none,
    finishReason := some "stop" }

/-- One attempt of the backend stream as observed by the closure:
the text fragments `chunk.text()` yields in order, then `none` if the
`for await` loop completes normally or `some e` if the stream throws `e`
after those fragments. -/
structure BackendAttempt where
  fragments : List String
  outcome : Option JsError

/-- The `for await` loop over `streamResult.stream` (lines 288-310): for
each fragment, `if (chunkText)` — i.e. if it is non-empty — write one
content-delta chunk; `out` is the list of frames already written. -/
def writeFragments (id : String) (created : Nat) (frags : List String)
    (out : List SSEFrame) : List SSEFrame :=
  frags.foldl (fun acc chunkText =>
    if chunkText = "" then acc
    else acc ++ [SSEFrame.chunk (chunkEvent id created chunkText)]) out

/-- The closure the streaming branch passes to `executeWithRetry`
(lines 276-329): start a chat session bound to the key's model, stream
the reply, write a delta chunk per non-empty fragment, and on normal
completion write the finish chunk, the `[DONE]` sentinel and end the
response. A thrown stream error aborts the closure after the frames
already written. -/
def streamApiCall (backend : Option String → BackendAttempt) (id : String) (created : Nat)
    (key : Option String) (out : List SSEFrame) : List SSEFrame × Except JsError Unit :=
  let att := backend key
  let out' := writeFragments id created att.fragments out
  match att.outcome with
  | none => (out' ++ [SSEFrame.chunk (finishEvent id created), SSEFrame.done], Except.ok ())
  | some e => (out', Except.error e)

/-- The streaming branch of `POST /v1/chat/completions` (lines 248-343):
write the role-announcement chunk, run the stream closure under
`executeWithRetry`, and if the retry executor ultimately rethrows, the
catch block appends the error event frame and the `[DONE]` sentinel.
`backend` maps the API key in use to that attempt's stream behaviour;
`maxRetries` is the executor's budget (`apiKeyPool.length` by default). -/
def handleStreamingRequest (backend : Option String → BackendAttempt) (id : String)
    (created : Nat) (maxRetries : Nat) (st : KeyState) : KeyState × List SSEFrame :=
  let out0 := [SSEFrame.chunk (startEvent id created)]
  match executeWithRetry (streamApiCall backend id created) maxRetries st out0 with
  | (st', out, Except.ok _) => (st', out)
  | (st', out, Except.error e) =>
      (st', out ++ [SSEFrame.errorEvent e.message "server_error", SSEFrame.done])

/-- The content-delta frames a fragment list produces: one per non-empty
fragment, in order. -/
def deltaFrames (id : String) (created : Nat) (frags : List String) : List SSEFrame :=
  (frags.filter (fun t => t != "")).map (fun t => SSEFrame.chunk (chunkEvent id created t))

/-- One content part in the backend's schema: either `\x7b text \x7d` or
`\x7b inlineData: \x7b data, mimeType \x7d \x7d` (base64 payload plus mime
type), as produced by `processMessageContent` and
`fileToGenerativePart`. -/
inductive ContentPart where
  | text (t : String)
  | inlineData (data : String) (mimeType : String)
deriving DecidableEq, Repr

/-- Model of JS `String.prototype.startsWith`. -/
def jsStartsWith (s p : String) : Bool :=
  p.data.isPrefixOf s.data

/-- A JS regexp line terminator, which `.` does not match: LF, CR,
U+2028, U+2029. -/
def lineTerminator (c : Char) : Bool :=
  c == '\n' || c == '\r' || c == Char.ofNat 0x2028 || c == Char.ofNat 0x2029

/-- Embedding of the regexp match
`url.match(/^data:([^;]+);base64,(.+)$/)` (src/server.js line 175).
Group 1 is the maximal non-empty `;`-free run after `data:` (the regexp
engine cannot match it any other way, since backtracking still has to put
a literal `;` right after it); then the literal `;base64,` must follow;
group 2 is the non-empty remainder up to the end of the string, in which
`.` matches no line terminator. Returns `(mimeType, base64Data)` exactly
when the regexp matches. -/
def parseDataUri (url : String) : Option (String × String) :=
  let cs := url.data
  if ("data:".data).isPrefixOf cs then
    let rest := cs.drop 5
    let mimeType := rest.takeWhile (fun c => c != ';')
    let after := rest.dropWhile (fun c => c != ';')
    if mimeType != ([] : List Char) && (";base64,".data).isPrefixOf after then
      let payload := after.drop 8
      if payload != ([] : List Char) && payload.all (fun c => !(lineTerminator c)) then
        some (String.mk mimeType, String.mk payload)
      else none
    else none
  else none

/-- Builds the data URI the claimed round-trip starts from. -/
def mkDataUri (mimeType base64Data : String) : String :=
  "data:" ++ mimeType ++ ";base64," ++ base64Data

/-- One item of a structured (array-shaped) OpenAI content value:
`\x7b type: "text", text \x7d`, `\x7b type: "image_url", image_url:
\x7b url \x7d \x7d`, or an item with any other tag. -/
inductive ContentItem where
  | text (t : String)
  | imageUrl (url : String)
  | otherType
deriving DecidableEq, Repr

/-- The placeholder text the normalizer emits for unsupported items
(line 194). -/
def unsupportedText : String := "不支持的内容类型"

/-- The per-item body of `processMessageContent`'s `content.map`
(lines 169-195). `fileOracle` stands for the filesystem-dependent
`fileToGenerativePart(path.join(rootDir, url), mime.lookup ∨ 'image/jpeg')`
branch for `/uploads/` references (line 188-191), an external
collaborator of the pure logic under proof. -/
def processItem (fileOracle : String → ContentPart) (item : ContentItem) : ContentPart :=
  match item with
  | ContentItem.text t => ContentPart.text t
  | ContentItem.imageUrl url =>
      if jsStartsWith url "data:" then
        match parseDataUri url with
        | some (mimeType, base64Data) => ContentPart.inlineData base64Data mimeType
        | none => ContentPart.text unsupportedText
      else if jsStartsWith url "/uploads/" then
        fileOracle url
      else ContentPart.text unsupportedText
  | ContentItem.otherType => ContentPart.text unsupportedText

/-- An incoming OpenAI message `content` value: a plain string, an array
of items, or any other JS value. A non-string non-array value is only
ever observed through `String(content)`, so `other` carries that default
string form directly (e.g. "null", "undefined", "42"). -/
inductive Content where
  | str (s : String)
  | list (items : List ContentItem)
  | other (stringForm : String)
deriving DecidableEq, Repr

/-- Model of the JS `String(content)` coercion (also used by the template
literal in the system-message branch): a string is itself; an array
joins its elements with "," where each element here is a plain object,
rendering as "[object Object]"; any other value is its carried string
form. -/
def Content.jsString : Content → String
  | Content.str s => s
  | Content.list items => String.intercalate "," (items.map (fun _ => "[object Object]"))
  | Content.other sf => sf

/-- Embedding of `processMessageContent` (lines 161-200): a string maps
to one text part, an array maps item-wise, anything else is coerced via
`String(content)` into one text part. -/
def processMessageContent (fileOracle : String → ContentPart) : Content → List ContentPart
  | Content.str s => [ContentPart.text s]
  | Content.list items => items.map (processItem fileOracle)
  | Content.other sf => [ContentPart.text sf]

/-- One incoming OpenAI chat message. -/
structure ChatMessage where
  role : String
  content : Content
deriving DecidableEq, Repr

/-- One turn of the backend's history: `\x7b role, parts \x7d`. -/
structure GeminiTurn where
  role : String
  parts : List ContentPart
deriving DecidableEq, Repr

/-- The per-message body of the history loop of
`POST /v1/chat/completions` (lines 224-241): assistant maps to role
"model", everything else to "user"; a system message's parts are the
single text part `[SYSTEM]: ${content}` (template literal = JS string
coercion); otherwise a string content maps to one text part and any
other shape goes through `processMessageContent`. -/
def translateMessage (fileOracle : String → ContentPart) (m : ChatMessage) : GeminiTurn :=
  let geminiRole := if m.role = "assistant" then "model" else "user"
  let processedContent :=
    if m.role = "system" then
      [ContentPart.text ("[SYSTEM]: " ++ m.content.jsString)]
    else
      match m.content with
      | Content.str s => [ContentPart.text s]
      | c => processMessageContent fileOracle c
  { role := geminiRole, parts := processedContent }

/-- The history loop (lines 223-241) runs over `messages.slice(0, -1)` —
every message but the last — in order. -/
def translateHistory (fileOracle : String → ContentPart)
    (messages : List ChatMessage) : List GeminiTurn :=
  (messages.dropLast).map (translateMessage fileOracle)

/-- One entry of the optional inline `images` array of
`POST /backends/chat-completions/generate`. -/
structure GenImage where
  data : String
  mimeType : String
deriving DecidableEq, Repr

/-- The request of `POST /backends/chat-completions/generate`: the
`prompt` body field (`none` = absent), the multipart uploads (by path,
resolved by the file oracle), and the inline base64 images. -/
structure GenRequest where
  prompt : Option String
  files : List String
  images : List GenImage
deriving DecidableEq, Repr

/-- The JSON body shapes this endpoint responds with:
`\x7b success: false, error \x7d` or `\x7b success: true, response \x7d`. -/
inductive GenBody where
  | failure (error : Option String)
  | success (response : String)
deriving DecidableEq, Repr

/-- An HTTP response: status code plus JSON body. -/
structure HttpResponse where
  status : Nat
  body : GenBody
deriving DecidableEq, Repr

/-- JS truthiness of a possibly-absent string (`if (!prompt)`). -/
def jsTruthyStr : Option String → Bool
  | none => false
  | some s => s != ""

/-- Embedding of the `POST /backends/chat-completions/generate` handler
(lines 426-477): missing/falsy prompt short-circuits to
400 `\x7b success: false, error \x7d` before any backend work; otherwise
the parts are the prompt text, one part per uploaded file (via the file
oracle standing for `fileToGenerativePart`), and one inline-data part per
inline image whose `data` and `mimeType` are both truthy, and the model
call `model.generateContent(messageParts)` runs under
`executeWithRetry`. The final `Nat` counts backend invocations. -/
def generateHandler (fileOracle : String → ContentPart)
    (backend : Option String → List ContentPart → Except JsError String)
    (maxRetries : Nat) (st : KeyState) (req : GenRequest) :
    KeyState × HttpResponse × Nat :=
  if !(jsTruthyStr req.prompt) then
    (st, { status := 400, body := GenBody.failure (some "必须提供prompt参数") }, 0)
  else
    let messageParts := ContentPart.text (req.prompt.getD "")
      :: (req.files.map fileOracle
          ++ (req.images.filter (fun im => im.data != "" && im.mimeType != "")).map
              (fun im => ContentPart.inlineData im.data im.mimeType))
    match executeWithRetry (fun k n => (n + 1, backend k messageParts)) maxRetries st 0 with
    | (st', n, Except.ok t) => (st', { status := 200, body := GenBody.success t }, n)
    | (st', n, Except.error e) =>
        (st', { status := 500, body := GenBody.failure e.message }, n)

/-- The concrete credential state for the retry-during-streaming witness:
two keys, cursor at the first. -/
def retryWitnessState : KeyState := KeyState.mk ["k1", "k2"] 0

/-- The concrete backend for the retry-during-streaming witness: the
first key yields "AB" then throws a 429; the second key yields "AB" then
"CD" and completes. -/
def retryWitnessBackend : Option String → BackendAttempt := fun k =>
  if k = some "k1" then ⟨["AB"], some ⟨some "429"⟩⟩ else ⟨["AB", "CD"], none⟩

end Server

namespace Server

/-! Helper lemmas about the rotation cursor. -/

theorem advanceKey_pool (st : KeyState) : (advanceKey st).pool = st.pool := rfl

theorem advanceKey_idx (st : KeyState) :
    (advanceKey st).idx = (st.idx + 1) % st.pool.length := rfl

/-- Iterating `advanceKey` k times from a valid cursor lands on
`(i + k) % p`. -/
theorem advanceKey_iterate (st : KeyState) (k : Nat) (hlt : st.idx < st.pool.length) :
    (advanceKey^[k] st) = { pool := st.pool, idx := (st.idx + k) % st.pool.length } := by
  induction k with
  | zero =>
      simp [Nat.mod_eq_of_lt hlt]
  | succ n ih =>
      rw [Function.iterate_succ_apply', ih]
      have hp : 0 < st.pool.length := Nat.pos_of_ne_zero (by omega)
      simp only [advanceKey, switchToNextApiKey]
      congr 1
      simp [Nat.mod_add_mod, Nat.add_assoc]

/-- Running the retry loop against a call that always throws a
rate-limited error: one invocation per unit of remaining budget, the
cursor advancing by one between invocations, and the final error
rethrown. The trace state `acc` records the key passed to each
invocation in order. -/
theorem executeWithRetryGo_always429 {e : JsError} (h429 : is429Error e = true) :
    ∀ (n : Nat) (st : KeyState) (acc : List (Option String)),
      1 ≤ n → st.idx < st.pool.length →
      executeWithRetryGo (fun k l => (l ++ [k], (Except.error e : Except JsError Unit))) n st acc
        = ({ pool := st.pool, idx := (st.idx + (n - 1)) % st.pool.length },
           acc ++ (List.range n).map (fun j => st.pool.get? ((st.idx + j) % st.pool.length)),
           Except.error e) := by
  intro n
  induction n with
  | zero => intro st acc h; omega
  | succ m ih =>
      intro st acc _h hidx
      have hp : 0 < st.pool.length := Nat.lt_of_le_of_lt (Nat.zero_le _) hidx
      by_cases hm : m = 0
      · subst hm
        simp [executeWithRetryGo, h429, Nat.mod_eq_of_lt hidx, getCurrentApiKey,
          List.range_succ]
      · have hmpos : 0 < m := Nat.pos_of_ne_zero hm
        have hstep : executeWithRetryGo (fun k l => (l ++ [k], (Except.error e : Except JsError Unit)))
            (Nat.succ m) st acc
            = executeWithRetryGo (fun k l => (l ++ [k], (Except.error e : Except JsError Unit))) m (advanceKey st)
                (acc ++ [getCurrentApiKey st]) := by
          simp [executeWithRetryGo, h429, hmpos]
        rw [hstep, ih (advanceKey st) (acc ++ [getCurrentApiKey st]) hmpos
            (by simp [advanceKey_idx, advanceKey_pool, Nat.mod_lt _ hp])]
        have hidxeq : (((st.idx + 1) % st.pool.length) + (m - 1)) % st.pool.length
            = (st.idx + m) % st.pool.length := by
          rw [Nat.mod_add_mod]
          congr 1
          omega
        have hmapeq : (List.range m).map
              (fun j => st.pool.get? (((st.idx + 1) % st.pool.length + j) % st.pool.length))
            = (List.range m).map (fun j => st.pool.get? ((st.idx + (j + 1)) % st.pool.length)) := by
          refine List.map_congr_left fun j _ => ?_
          rw [Nat.mod_add_mod]
          congr 2
          omega
        have hrange : (List.range (m + 1)).map
              (fun j => st.pool.get? ((st.idx + j) % st.pool.length))
            = st.pool.get? st.idx
                :: (List.range m).map (fun j => st.pool.get? ((st.idx + (j + 1)) % st.pool.length)) := by
          rw [List.range_succ_eq_map, List.map_cons, List.map_map]
          congr 1
          simp [Nat.mod_eq_of_lt hidx]
        simp only [advanceKey_pool, advanceKey_idx, hidxeq, hmapeq, Nat.succ_sub_one]
        rw [hrange]
        simp [getCurrentApiKey, List.append_assoc]

/-- A call that throws a non-rate-limited error is invoked once and the
error is rethrown with the cursor untouched. -/
theorem executeWithRetry_not429 {α : Type} {e : JsError} (h429 : is429Error e = false)
    (res : Except JsError α) (hres : res = Except.error e)
    (maxRetries : Nat) (st : KeyState) (hmax : 1 ≤ maxRetries) :
    executeWithRetry (fun k l => (l ++ [k], res)) maxRetries st ([] : List (Option String))
      = (st, [getCurrentApiKey st], Except.error e) := by
  obtain ⟨n, rfl⟩ : ∃ n, maxRetries = n + 1 := ⟨maxRetries - 1, by omega⟩
  subst hres
  simp [executeWithRetry, executeWithRetryGo, h429]

/-- C1: a backend call that always throws a rate-limit-classified error is
invoked exactly `maxRetries` times (the trace, which records the key
handed to each invocation, has length `maxRetries`), the cursor advances
by one between consecutive invocations (the j-th invocation sees the key
at `(idx + j) % poolSize` and the final cursor is
`(idx + maxRetries - 1) % poolSize`), and the final error is propagated;
a call throwing a non-rate-limit error is invoked exactly once, no cursor
advance happens, and that error is propagated. -/
theorem retry_executor_attempt_counts (e : JsError) (maxRetries : Nat) (st : KeyState)
    (hmax : 1 ≤ maxRetries) (hidx : st.idx < st.pool.length) :
    (is429Error e = true →
      executeWithRetry (fun k l => (l ++ [k], (Except.error e : Except JsError Unit)))
          maxRetries st []
        = ({ pool := st.pool, idx := (st.idx + (maxRetries - 1)) % st.pool.length },
           (List.range maxRetries).map (fun j => st.pool.get? ((st.idx + j) % st.pool.length)),
           Except.error e))
    ∧ (is429Error e = false →
      executeWithRetry (fun k l => (l ++ [k], (Except.error e : Except JsError Unit)))
          maxRetries st []
        = (st, [getCurrentApiKey st], Except.error e)) := by
  constructor
  · intro h429
    simpa [executeWithRetry] using
      executeWithRetryGo_always429 h429 maxRetries st [] hmax hidx
  · intro h429
    exact executeWithRetry_not429 h429 _ rfl maxRetries st hmax

/-- Witness for `retry_executor_attempt_counts`: two keys, a rate-limited
error, budget 2 — two invocations on keys k1 then k2, final cursor 1; and
a fatal error — one invocation, cursor unchanged. -/
theorem retry_executor_attempt_counts_witness :
    (1 ≤ 2 ∧ (KeyState.mk ["k1", "k2"] 0).idx < (KeyState.mk ["k1", "k2"] 0).pool.length)
    ∧ (executeWithRetry
        (fun k l => (l ++ [k], (Except.error ⟨some "429"⟩ : Except JsError Unit)))
        2 (KeyState.mk ["k1", "k2"] 0) []
        = (KeyState.mk ["k1", "k2"] 1, [some "k1", some "k2"], Except.error ⟨some "429"⟩))
    ∧ (executeWithRetry
        (fun k l => (l ++ [k], (Except.error ⟨some "boom"⟩ : Except JsError Unit)))
        2 (KeyState.mk ["k1", "k2"] 0) []
        = (KeyState.mk ["k1", "k2"] 0, [some "k1"], Except.error ⟨some "boom"⟩)) := by
  refine ⟨⟨by decide, by decide⟩, ?_, ?_⟩
  · have h := (retry_executor_attempt_counts ⟨some "429"⟩ 2 (KeyState.mk ["k1", "k2"] 0)
      (by decide) (by decide)).1 (by decide)
    rw [h]
    rfl
  · have h := (retry_executor_attempt_counts ⟨some "boom"⟩ 2 (KeyState.mk ["k1", "k2"] 0)
      (by decide) (by decide)).2 (by decide)
    rw [h]
    rfl

/-- C4: an error is classified as rate-limited iff its message is present
and contains one of the four case-sensitive markers as a contiguous
substring; any error not so classified (in particular one with an absent
or empty message) is propagated unchanged by the retry executor, with a
single invocation and without advancing the credential cursor. -/
theorem error_classification_iff_and_fatal_propagation (e : JsError) :
    (is429Error e = true ↔
      ∃ m, e.message = some m ∧
        ∃ mark ∈ (["429", "quota", "rate limit", "too many requests"] : List String),
          mark.data <:+: m.data)
    ∧ (∀ (maxRetries : Nat) (st : KeyState), 1 ≤ maxRetries → is429Error e = false →
        executeWithRetry (fun k l => (l ++ [k], (Except.error e : Except JsError Unit)))
            maxRetries st []
          = (st, [getCurrentApiKey st], Except.error e)) := by
  constructor
  · cases hm : e.message with
    | none => simp [is429Error, hm]
    | some m =>
        simp only [is429Error, hm, Option.some.injEq]
        constructor
        · intro h
          rw [Bool.and_eq_true] at h
          obtain ⟨-, hor⟩ := h
          simp only [Bool.or_eq_true, strIncludes, decide_eq_true_eq] at hor
          refine ⟨m, rfl, ?_⟩
          rcases hor with ((h | h) | h) | h
          · exact ⟨"429", by simp, h⟩
          · exact ⟨"quota", by simp, h⟩
          · exact ⟨"rate limit", by simp, h⟩
          · exact ⟨"too many requests", by simp, h⟩
        · rintro ⟨m', hm', mark, hmark, hinf⟩
          obtain rfl : m = m' := hm'
          have hm_ne : m ≠ "" := by
            rintro rfl
            have hlen := hinf.length_le
            simp at hmark
            rcases hmark with rfl | rfl | rfl | rfl <;> simp at hlen
          rw [Bool.and_eq_true]
          refine ⟨by simpa using hm_ne, ?_⟩
          simp only [Bool.or_eq_true, strIncludes, decide_eq_true_eq]
          simp at hmark
          rcases hmark with rfl | rfl | rfl | rfl
          · exact Or.inl (Or.inl (Or.inl hinf))
          · exact Or.inl (Or.inl (Or.inr hinf))
          · exact Or.inl (Or.inr hinf)
          · exact Or.inr hinf
  · intro maxRetries st hmax h429
    exact executeWithRetry_not429 h429 _ rfl maxRetries st hmax

/-- Witness for `error_classification_iff_and_fatal_propagation`: the
message "quota exceeded" is classified rate-limited; the message "boom"
is not, and with budget 3 its error passes through after one invocation
with the cursor left at 0. -/
theorem error_classification_witness :
    is429Error ⟨some "quota exceeded"⟩ = true
    ∧ (1 ≤ 3 ∧ is429Error ⟨some "boom"⟩ = false)
    ∧ executeWithRetry
        (fun k l => (l ++ [k], (Except.error ⟨some "boom"⟩ : Except JsError Unit)))
        3 (KeyState.mk ["a", "b", "c"] 0) []
      = (KeyState.mk ["a", "b", "c"] 0, [some "a"], Except.error ⟨some "boom"⟩) := by
  refine ⟨?_, ⟨by decide, by decide⟩, ?_⟩
  · exact (error_classification_iff_and_fatal_propagation ⟨some "quota exceeded"⟩).1.mpr
      ⟨"quota exceeded", rfl, "quota", by simp, by decide⟩
  · have h := (error_classification_iff_and_fatal_propagation ⟨some "boom"⟩).2
      3 (KeyState.mk ["a", "b", "c"] 0) (by decide) (by decide)
    rw [h]
    rfl

/-- C5: for a pool of size `p ≥ 1` and starting cursor `i < p`, calling
`switchToNextApiKey` k times leaves the cursor at `(i + k) % p`, and the
(j+1)-st call returns the credential at the new cursor position
`(i + j + 1) % p`. -/
theorem rotator_advance_k_lands_mod (st : KeyState) (k : Nat)
    (h : st.idx < st.pool.length) :
    (advanceKey^[k] st).idx = (st.idx + k) % st.pool.length
    ∧ ∀ j : Nat, switchToNextApiKey (advanceKey^[j] st)
        = (advanceKey^[j + 1] st, st.pool.get? ((st.idx + j + 1) % st.pool.length)) := by
  have hp : 0 < st.pool.length := Nat.lt_of_le_of_lt (Nat.zero_le _) h
  constructor
  · rw [advanceKey_iterate st k h]
  · intro j
    rw [advanceKey_iterate st j h, advanceKey_iterate st (j + 1) h]
    simp only [switchToNextApiKey]
    rw [Prod.mk.injEq]
    constructor
    · congr 1
      simp [Nat.mod_add_mod, Nat.add_assoc]
    · congr 1
      simp [Nat.mod_add_mod, Nat.add_assoc]

/-! Streaming lemmas. -/

theorem writeFragments_eq (id : String) (created : Nat) (frags : List String) :
    ∀ out, writeFragments id created frags out = out ++ deltaFrames id created frags := by
  induction frags with
  | nil => intro out; simp [writeFragments, deltaFrames]
  | cons t ts ih =>
      intro out
      by_cases ht : t = ""
      · subst ht
        simpa [writeFragments, deltaFrames] using ih out
      · have h1 : writeFragments id created (t :: ts) out
            = writeFragments id created ts (out ++ [SSEFrame.chunk (chunkEvent id created t)]) := by
          simp [writeFragments, ht]
        rw [h1, ih]
        simp [deltaFrames, ht]

/-- A successful first invocation returns immediately. -/
theorem executeWithRetryGo_first_ok {σ α : Type}
    (fn : Option String → σ → σ × Except JsError α) (n : Nat) (st : KeyState)
    (s s' : σ) (a : α) (h : fn (getCurrentApiKey st) s = (s', Except.ok a)) :
    executeWithRetryGo fn (n + 1) st s = (st, s', Except.ok a) := by
  simp [executeWithRetryGo, h]

/-- A rate-limited first invocation with budget remaining retries on the
next key, keeping the state the failed invocation already produced. -/
theorem executeWithRetryGo_retry {σ α : Type}
    (fn : Option String → σ → σ × Except JsError α) (n : Nat) (st : KeyState)
    (s s' : σ) (e : JsError) (h : fn (getCurrentApiKey st) s = (s', Except.error e))
    (h429 : is429Error e = true) :
    executeWithRetryGo fn (n + 2) st s = executeWithRetryGo fn (n + 1) (advanceKey st) s' := by
  simp [executeWithRetryGo, h, h429]

/-- A streaming request whose backend attempt yields `frags` on the
current key and completes normally emits the role chunk, one delta chunk
per non-empty fragment in order, the finish chunk and the sentinel, and
leaves the cursor untouched. -/
theorem handleStreamingRequest_success (id : String) (created : Nat)
    (n : Nat) (st : KeyState) (frags : List String) :
    handleStreamingRequest (fun _ => ⟨frags, none⟩) id created (n + 1) st
      = (st, SSEFrame.chunk (startEvent id created)
          :: (deltaFrames id created frags
              ++ [SSEFrame.chunk (finishEvent id created), SSEFrame.done])) := by
  have hcall : streamApiCall (fun _ => ⟨frags, none⟩) id created
      (getCurrentApiKey st) [SSEFrame.chunk (startEvent id created)]
      = ([SSEFrame.chunk (startEvent id created)] ++ deltaFrames id created frags
          ++ [SSEFrame.chunk (finishEvent id created), SSEFrame.done], Except.ok ()) := by
    simp [streamApiCall, writeFragments_eq, List.append_assoc]
  have hrun := executeWithRetryGo_first_ok _ n st _ _ _ hcall
  simp [handleStreamingRequest, executeWithRetry, hrun, List.append_assoc]

/-- C10: a streaming response over an arbitrary fragment list (completing
normally) emits the role chunk, then exactly one content-delta chunk per
non-empty fragment in order — empty fragments produce no frame — then the
finish chunk and the sentinel; every emitted delta chunk carries
non-empty content. -/
theorem streaming_skips_empty_fragments (id : String) (created : Nat)
    (maxRetries : Nat) (st : KeyState) (frags : List String) (hmax : 1 ≤ maxRetries) :
    handleStreamingRequest (fun _ => ⟨frags, none⟩) id created maxRetries st
      = (st, SSEFrame.chunk (startEvent id created)
          :: (deltaFrames id created frags
              ++ [SSEFrame.chunk (finishEvent id created), SSEFrame.done]))
    ∧ (deltaFrames id created frags).length = (frags.filter (fun t => t != "")).length
    ∧ ∀ f ∈ deltaFrames id created frags,
        ∃ t, t ≠ "" ∧ f = SSEFrame.chunk (chunkEvent id created t) := by
  refine ⟨?_, by simp [deltaFrames], ?_⟩
  · obtain ⟨n, rfl⟩ : ∃ n, maxRetries = n + 1 := ⟨maxRetries - 1, by omega⟩
    exact handleStreamingRequest_success id created n st frags
  · intro f hf
    simp only [deltaFrames, List.mem_map, List.mem_filter] at hf
    obtain ⟨t, ⟨-, ht⟩, rfl⟩ := hf
    exact ⟨t, by simpa using ht, rfl⟩

/-- Witness for `streaming_skips_empty_fragments`: fragments ["", "a"]
produce only the delta chunk for "a" between the role chunk and the
finish chunk. -/
theorem streaming_skips_empty_witness :
    (1 ≤ 1 : Prop)
    ∧ handleStreamingRequest (fun _ => ⟨["", "a"], none⟩) "id1" 7 1 (KeyState.mk ["k"] 0)
      = (KeyState.mk ["k"] 0,
         [SSEFrame.chunk (startEvent "id1" 7),
          SSEFrame.chunk (chunkEvent "id1" 7 "a"),
          SSEFrame.chunk (finishEvent "id1" 7),
          SSEFrame.done]) := by
  refine ⟨by decide, ?_⟩
  have h := (streaming_skips_empty_fragments "id1" 7 1 (KeyState.mk ["k"] 0) ["", "a"]
    (by decide)).1
  rw [h]
  rfl

/-- C2: a stream yielding exactly "Hel" then "lo" and completing produces
exactly five frames in order — role chunk, delta "Hel", delta "lo",
finish chunk, `[DONE]` sentinel — and every chunk frame carries the same
id. -/
theorem streaming_two_fragments_five_frames (id : String) (created : Nat)
    (maxRetries : Nat) (st : KeyState) (hmax : 1 ≤ maxRetries) :
    handleStreamingRequest (fun _ => ⟨["Hel", "lo"], none⟩) id created maxRetries st
      = (st, [SSEFrame.chunk (startEvent id created),
              SSEFrame.chunk (chunkEvent id created "Hel"),
              SSEFrame.chunk (chunkEvent id created "lo"),
              SSEFrame.chunk (finishEvent id created),
              SSEFrame.done])
    ∧ (handleStreamingRequest (fun _ => ⟨["Hel", "lo"], none⟩) id created maxRetries st).2.length
        = 5
    ∧ ∀ c : ChatChunk,
        SSEFrame.chunk c ∈ (handleStreamingRequest (fun _ => ⟨["Hel", "lo"], none⟩)
          id created maxRetries st).2 → c.id = id := by
  obtain ⟨n, rfl⟩ : ∃ n, maxRetries = n + 1 := ⟨maxRetries - 1, by omega⟩
  have h := handleStreamingRequest_success id created n st ["Hel", "lo"]
  have hdelta : deltaFrames id created ["Hel", "lo"]
      = [SSEFrame.chunk (chunkEvent id created "Hel"),
         SSEFrame.chunk (chunkEvent id created "lo")] := by
    simp [deltaFrames]
  rw [hdelta] at h
  have h5 : handleStreamingRequest (fun _ => ⟨["Hel", "lo"], none⟩) id created (n + 1) st
      = (st, [SSEFrame.chunk (startEvent id created),
              SSEFrame.chunk (chunkEvent id created "Hel"),
              SSEFrame.chunk (chunkEvent id created "lo"),
              SSEFrame.chunk (finishEvent id created),
              SSEFrame.done]) := by
    rw [h]
    simp
  refine ⟨h5, by simp [h5], ?_⟩
  intro c hc
  rw [h5] at hc
  simp only [List.mem_cons, List.not_mem_nil, or_false, SSEFrame.chunk.injEq] at hc
  rcases hc with rfl | rfl | rfl | rfl | hc
  · rfl
  · rfl
  · rfl
  · rfl
  · exact SSEFrame.noConfusion hc

/-- Witness for `streaming_two_fragments_five_frames` at a concrete id,
timestamp, budget and key state. -/
theorem streaming_two_fragments_witness :
    (1 ≤ 1 : Prop)
    ∧ handleStreamingRequest (fun _ => ⟨["Hel", "lo"], none⟩) "chatcmpl-2" 5 1
        (KeyState.mk ["k"] 0)
      = (KeyState.mk ["k"] 0,
         [SSEFrame.chunk (startEvent "chatcmpl-2" 5),
          SSEFrame.chunk (chunkEvent "chatcmpl-2" 5 "Hel"),
          SSEFrame.chunk (chunkEvent "chatcmpl-2" 5 "lo"),
          SSEFrame.chunk (finishEvent "chatcmpl-2" 5),
          SSEFrame.done]) :=
  ⟨by decide,
    (streaming_two_fragments_five_frames "chatcmpl-2" 5 1 (KeyState.mk ["k"] 0) (by decide)).1⟩

/-- C3: if the first streaming attempt throws a rate-limit-classified
error after its delta chunks are already written and budget remains, no
error frame or sentinel is emitted at that point; the whole closure is
re-run on the next credential, and the new attempt's role-less delta
chunks land after the frames of the failed attempt, which are never
retracted. Here the second attempt completes, so the output interleaves
both attempts' content. -/
theorem streaming_retry_appends_after_partial_output
    (backend : Option String → BackendAttempt) (id : String) (created : Nat)
    (maxRetries : Nat) (st : KeyState) (frags1 frags2 : List String) (e : JsError)
    (hmax : 2 ≤ maxRetries)
    (h1 : backend (getCurrentApiKey st) = ⟨frags1, some e⟩)
    (h429 : is429Error e = true)
    (h2 : backend (getCurrentApiKey (advanceKey st)) = ⟨frags2, none⟩) :
    handleStreamingRequest backend id created maxRetries st
      = (advanceKey st,
         SSEFrame.chunk (startEvent id created)
           :: (deltaFrames id created frags1
               ++ (deltaFrames id created frags2
                   ++ [SSEFrame.chunk (finishEvent id created), SSEFrame.done])))
    ∧ ∀ c : ChatChunk,
        SSEFrame.chunk c ∈ deltaFrames id created frags2 → c.deltaRole = none := by
  constructor
  · obtain ⟨n, rfl⟩ : ∃ n, maxRetries = n + 2 := ⟨maxRetries - 2, by omega⟩
    have hcall1 : streamApiCall backend id created (getCurrentApiKey st)
        [SSEFrame.chunk (startEvent id created)]
        = ([SSEFrame.chunk (startEvent id created)] ++ deltaFrames id created frags1,
           Except.error e) := by
      simp [streamApiCall, h1, writeFragments_eq]
    have hcall2 : streamApiCall backend id created (getCurrentApiKey (advanceKey st))
        ([SSEFrame.chunk (startEvent id created)] ++ deltaFrames id created frags1)
        = ([SSEFrame.chunk (startEvent id created)] ++ deltaFrames id created frags1
            ++ deltaFrames id created frags2
            ++ [SSEFrame.chunk (finishEvent id created), SSEFrame.done], Except.ok ()) := by
      simp [streamApiCall, h2, writeFragments_eq, List.append_assoc]
    have hrun : executeWithRetryGo (streamApiCall backend id created) (n + 2) st
        [SSEFrame.chunk (startEvent id created)]
        = (advanceKey st,
           [SSEFrame.chunk (startEvent id created)] ++ deltaFrames id created frags1
             ++ deltaFrames id created frags2
             ++ [SSEFrame.chunk (finishEvent id created), SSEFrame.done], Except.ok ()) := by
      rw [executeWithRetryGo_retry _ n st _ _ e hcall1 h429,
        executeWithRetryGo_first_ok _ n (advanceKey st) _ _ _ hcall2]
    simp [handleStreamingRequest, executeWithRetry, hrun, List.append_assoc]
  · intro c hc
    simp only [deltaFrames, List.mem_map] at hc
    obtain ⟨t, -, ht⟩ := hc
    injection ht with ht
    subst ht
    rfl

/-- Witness for `streaming_retry_appends_after_partial_output`: the
client receives the "AB" delta twice — once from the failed attempt and
once from the retried one — with no error frame in between. -/
theorem streaming_retry_witness :
    (2 ≤ 2 ∧ is429Error ⟨some "429"⟩ = true)
    ∧ handleStreamingRequest retryWitnessBackend "chatcmpl-1" 0 2 retryWitnessState
      = (KeyState.mk ["k1", "k2"] 1,
         [SSEFrame.chunk (startEvent "chatcmpl-1" 0),
          SSEFrame.chunk (chunkEvent "chatcmpl-1" 0 "AB"),
          SSEFrame.chunk (chunkEvent "chatcmpl-1" 0 "AB"),
          SSEFrame.chunk (chunkEvent "chatcmpl-1" 0 "CD"),
          SSEFrame.chunk (finishEvent "chatcmpl-1" 0),
          SSEFrame.done]) := by
  refine ⟨⟨by decide, by decide⟩, ?_⟩
  have h := (streaming_retry_appends_after_partial_output retryWitnessBackend "chatcmpl-1" 0 2
    retryWitnessState ["AB"] ["AB", "CD"] ⟨some "429"⟩ (by decide) rfl (by decide) rfl).1
  rw [h]
  rfl

/-! Content-normalization lemmas. -/

theorem takeWhile_semi_split (l r : List Char) (h : ∀ c ∈ l, c ≠ ';') :
    (l ++ ';' :: r).takeWhile (fun c => c != ';') = l
    ∧ (l ++ ';' :: r).dropWhile (fun c => c != ';') = ';' :: r := by
  induction l with
  | nil => simp [List.takeWhile, List.dropWhile]
  | cons a t ih =>
      have ha : a ≠ ';' := h a (List.mem_cons_self a t)
      obtain ⟨h1, h2⟩ := ih (fun c hc => h c (List.mem_cons_of_mem a hc))
      constructor
      · simpa [List.takeWhile_cons, ha] using h1
      · simpa [List.dropWhile_cons, ha] using h2

/-- The regexp-match embedding inverts `mkDataUri` whenever the mime type
is non-empty and `;`-free and the payload is non-empty and free of line
terminators — exactly the URIs the regexp accepts at all. -/
theorem parseDataUri_mkDataUri (m d : String) (hm1 : m ≠ "")
    (hm2 : ∀ c ∈ m.data, c ≠ ';') (hd1 : d ≠ "")
    (hd2 : ∀ c ∈ d.data, lineTerminator c = false) :
    parseDataUri (mkDataUri m d) = some (m, d) := by
  have hm_ne : m.data ≠ [] := by
    intro h
    apply hm1
    cases m
    simp only at h
    rw [h]
  have hd_ne : d.data ≠ [] := by
    intro h
    apply hd1
    cases d
    simp only at h
    rw [h]
  have hdata : (mkDataUri m d).data
      = "data:".data ++ (m.data ++ (';' :: ("base64,".data ++ d.data))) := by
    simp [mkDataUri, String.data_append, List.append_assoc]
  have hpre : ("data:".data).isPrefixOf (mkDataUri m d).data = true := by
    rw [List.isPrefixOf_iff_prefix, hdata]
    exact List.prefix_append _ _
  have hdrop5 : ((mkDataUri m d).data).drop 5
      = m.data ++ (';' :: ("base64,".data ++ d.data)) := by
    rw [hdata, show (5 : Nat) = ("data:".data).length from rfl]
    exact List.drop_left _ _
  obtain ⟨htake, hdropw⟩ := takeWhile_semi_split m.data ("base64,".data ++ d.data) hm2
  have hpre2 : (";base64,".data).isPrefixOf (';' :: ("base64,".data ++ d.data)) = true := by
    rw [List.isPrefixOf_iff_prefix]
    exact ⟨d.data, by simp⟩
  have hdrop8 : (';' :: ("base64,".data ++ d.data)).drop 8 = d.data := by
    have hre : (';' :: ("base64,".data ++ d.data)) = ";base64,".data ++ d.data := by simp
    rw [hre, show (8 : Nat) = (";base64,".data).length from rfl]
    exact List.drop_left _ _
  have hall : (d.data).all (fun c => !(lineTerminator c)) = true := by
    rw [List.all_eq_true]
    intro c hc
    simp [hd2 c hc]
  have hmime_ne : (m.data != ([] : List Char)) = true := by simpa using hm_ne
  have hpay_ne : (d.data != ([] : List Char)) = true := by simpa using hd_ne
  simp only [parseDataUri, hpre, if_true, hdrop5, htake, hdropw, hpre2, hdrop8,
    hmime_ne, hpay_ne, hall, Bool.and_self, Bool.true_and, Bool.and_true]

/-- C6: a content list with one image item whose URL is a well-formed
base64 data URI `data:<mime>;base64,<payload>` (non-empty `;`-free mime,
non-empty payload without line terminators) normalizes to exactly one
inline-image part carrying that mime type and payload; hence encoding any
such mime/payload pair into a data URI and normalizing round-trips. -/
theorem data_uri_normalization_roundtrip (fileOracle : String → ContentPart)
    (mimeType base64Data : String) (hm1 : mimeType ≠ "")
    (hm2 : ∀ c ∈ mimeType.data, c ≠ ';') (hd1 : base64Data ≠ "")
    (hd2 : ∀ c ∈ base64Data.data, lineTerminator c = false) :
    processMessageContent fileOracle
        (Content.list [ContentItem.imageUrl (mkDataUri mimeType base64Data)])
      = [ContentPart.inlineData base64Data mimeType]
    ∧ parseDataUri (mkDataUri mimeType base64Data) = some (mimeType, base64Data) := by
  have hparse := parseDataUri_mkDataUri mimeType base64Data hm1 hm2 hd1 hd2
  have hstart : jsStartsWith (mkDataUri mimeType base64Data) "data:" = true := by
    rw [jsStartsWith, List.isPrefixOf_iff_prefix]
    rw [show (mkDataUri mimeType base64Data).data
        = "data:".data ++ (mimeType ++ ";base64," ++ base64Data).data by
      simp [mkDataUri, String.data_append]]
    exact List.prefix_append _ _
  refine ⟨?_, hparse⟩
  simp [processMessageContent, processItem, hstart, hparse]

/-- Witness for `data_uri_normalization_roundtrip` at mime "image/png"
and payload "QUJD". -/
theorem data_uri_roundtrip_witness :
    ("image/png" ≠ "" ∧ "QUJD" ≠ ""
      ∧ (∀ c ∈ "image/png".data, c ≠ ';')
      ∧ (∀ c ∈ "QUJD".data, lineTerminator c = false))
    ∧ processMessageContent (fun _ => ContentPart.text "")
        (Content.list [ContentItem.imageUrl (mkDataUri "image/png" "QUJD")])
      = [ContentPart.inlineData "QUJD" "image/png"] := by
  refine ⟨⟨by decide, by decide, by decide, by decide⟩, ?_⟩
  exact (data_uri_normalization_roundtrip (fun _ => ContentPart.text "") "image/png" "QUJD"
    (by decide) (by decide) (by decide) (by decide)).1

/-- C7: the produced history consists of exactly the first N-1 input
messages translated in order — the final message never contributes a
turn. -/
theorem history_excludes_final_message (fileOracle : String → ContentPart)
    (messages : List ChatMessage) (hlen : 1 ≤ messages.length) :
    translateHistory fileOracle messages
      = (messages.take (messages.length - 1)).map (translateMessage fileOracle)
    ∧ (translateHistory fileOracle messages).length = messages.length - 1
    ∧ ∀ j : Nat, j < messages.length - 1 →
        (translateHistory fileOracle messages).get? j
          = (messages.get? j).map (translateMessage fileOracle) := by
  refine ⟨by rw [translateHistory, List.dropLast_eq_take], by simp [translateHistory], ?_⟩
  intro j hj
  rw [translateHistory, List.get?_map, List.dropLast_eq_take, List.get?_take hj]

/-- Witness for `history_excludes_final_message`: a three-message list
yields two turns and its last message is dropped. -/
theorem history_excludes_final_witness :
    (1 ≤ ([ChatMessage.mk "user" (Content.str "a"),
           ChatMessage.mk "assistant" (Content.str "b"),
           ChatMessage.mk "user" (Content.str "c")] : List ChatMessage).length)
    ∧ (translateHistory (fun _ => ContentPart.text "")
        [ChatMessage.mk "user" (Content.str "a"),
         ChatMessage.mk "assistant" (Content.str "b"),
         ChatMessage.mk "user" (Content.str "c")]).length = 2 := by
  refine ⟨by decide, ?_⟩
  exact (history_excludes_final_message (fun _ => ContentPart.text "")
    [ChatMessage.mk "user" (Content.str "a"),
     ChatMessage.mk "assistant" (Content.str "b"),
     ChatMessage.mk "user" (Content.str "c")] (by decide)).2.1

/-- C8: a non-final system message translates to a user-role turn whose
single text part is the literal prefix "[SYSTEM]: " followed by the
content's default JS string coercion, whatever the content's shape. -/
theorem system_message_translation (fileOracle : String → ContentPart) (m : ChatMessage)
    (hrole : m.role = "system") :
    translateMessage fileOracle m
      = { role := "user",
          parts := [ContentPart.text ("[SYSTEM]: " ++ m.content.jsString)] } := by
  simp [translateMessage, hrole]

/-- Witness for `system_message_translation`: a system message with
array-shaped content is coerced to "[object Object]" text form. -/
theorem system_message_translation_witness :
    ((ChatMessage.mk "system" (Content.list [ContentItem.text "hi"])).role = "system")
    ∧ translateMessage (fun _ => ContentPart.text "")
        (ChatMessage.mk "system" (Content.list [ContentItem.text "hi"]))
      = { role := "user", parts := [ContentPart.text "[SYSTEM]: [object Object]"] } := by
  refine ⟨rfl, ?_⟩
  have h := system_message_translation (fun _ => ContentPart.text "")
    (ChatMessage.mk "system" (Content.list [ContentItem.text "hi"])) rfl
  rw [h]
  rfl

/-- C9: a request with an absent or falsy prompt is answered with
HTTP 400 and `\x7b success: false, error \x7d`, the credential state is
untouched and the backend is never invoked (invocation count 0). -/
theorem generate_missing_prompt_400 (fileOracle : String → ContentPart)
    (backend : Option String → List ContentPart → Except JsError String)
    (maxRetries : Nat) (st : KeyState) (req : GenRequest)
    (hprompt : jsTruthyStr req.prompt = false) :
    generateHandler fileOracle backend maxRetries st req
      = (st, { status := 400, body := GenBody.failure (some "必须提供prompt参数") }, 0) := by
  simp [generateHandler, hprompt]

/-- Witness for `generate_missing_prompt_400`: a request with no prompt
field at all. -/
theorem generate_missing_prompt_witness :
    jsTruthyStr (GenRequest.mk none [] []).prompt = false
    ∧ generateHandler (fun _ => ContentPart.text "")
        (fun _ _ => Except.ok "unreachable") 3 (KeyState.mk ["k"] 0)
        (GenRequest.mk none [] [])
      = (KeyState.mk ["k"] 0,
         { status := 400, body := GenBody.failure (some "必须提供prompt参数") }, 0) := by
  refine ⟨by decide, ?_⟩
  exact generate_missing_prompt_400 (fun _ => ContentPart.text "")
    (fun _ _ => Except.ok "unreachable") 3 (KeyState.mk ["k"] 0)
    (GenRequest.mk none [] []) (by decide)

/-- Witness for `rotator_advance_k_lands_mod`: three keys, five advances
from cursor 1 land on (1+5) mod 3 = 0, and the first advance returns the
key at position 2. -/
theorem rotator_advance_witness :
    ((KeyState.mk ["a", "b", "c"] 1).idx < (KeyState.mk ["a", "b", "c"] 1).pool.length)
    ∧ (advanceKey^[5] (KeyState.mk ["a", "b", "c"] 1)).idx = (1 + 5) % 3
    ∧ switchToNextApiKey (advanceKey^[0] (KeyState.mk ["a", "b", "c"] 1))
        = (advanceKey^[1] (KeyState.mk ["a", "b", "c"] 1), some "c") := by
  refine ⟨by decide, ?_, ?_⟩
  · exact (rotator_advance_k_lands_mod (KeyState.mk ["a", "b", "c"] 1) 5 (by decide)).1
  · have h := (rotator_advance_k_lands_mod (KeyState.mk ["a", "b", "c"] 1) 5 (by decide)).2 0
    rw [h]
    rfl

end Server
